import Mathlib

/-!
Verification development for the collaborative map-sketch synchronization
substrate of the eo_utils repository.

Server side (`Relay` namespace): a shallow embedding of
`CollabHandler.java` — the room-scoped WebSocket relay.  The two
`ConcurrentHashMap`s (`rooms : room -> session set`,
`sessionRoom : session -> room`) are modelled as association lists,
sessions as natural numbers, and a fan-out as the list of
(recipient, payload) send attempts the loop in `broadcast` performs.
The relay is exercised sequentially (one step at a time); the Java
concurrency of the maps is out of scope of the claims settled here.

Client side (`Client` namespace): a shallow embedding of the
collaboration core of `shadow/app.js` — the WebSocket message handler,
participant registry, feature reconciliation
(`addFeatureFromRemote` / `editFeatureFromRemote` / `removeFeatureById`),
the outbound senders, and the undo/redo history
(`snapshot` / `undo` / `redo` / `loadState` / `restoreFromGeoJSON`).
JavaScript truthiness on the fields the code tests with `&&` / `||` / `??`
is modelled explicitly (absent values and the empty string are falsy;
`??` only treats absent values as missing).  Exceptions are modelled with
an explicit error channel `ClientState × Option String`: `none` means the
operation returned normally, `some e` means an exception `e` escaped
(JavaScript state mutations performed before the throw persist, which the
explicit state component records).  A JavaScript `try/finally` is
modelled by performing the `finally` update on the state while passing
the error component through.
-/

namespace Relay

/-- First-match lookup in an association list, as `Map.get`. -/
def alookup {α β : Type} [DecidableEq α] : List (α × β) → α → Option β
  | [], _ => none
  | (k, v) :: rest, k' => if k = k' then some v else alookup rest k'

/-- Remove the first entry with the given key, as `Map.remove`. -/
def aerase {α β : Type} [DecidableEq α] : List (α × β) → α → List (α × β)
  | [], _ => []
  | (k, v) :: rest, k' => if k = k' then rest else (k, v) :: aerase rest k'

/-- Replace the value at the first entry with the given key; append when absent. -/
def aset {α β : Type} [DecidableEq α] : List (α × β) → α → β → List (α × β)
  | [], k', v' => [(k', v')]
  | (k, v) :: rest, k', v' => if k = k' then (k', v') :: rest else (k, v) :: aset rest k' v'

/-- The relay's global mutable state: `rooms` maps a room name to the set of
sessions registered in it (`ConcurrentHashMap.newKeySet`, modelled as a
duplicate-free list), `sessionRoom` maps a session to the room it was bound
to on its first message. -/
structure RelayState where
  rooms : List (String × List Nat)
  sessionRoom : List (Nat × String)
  deriving DecidableEq, Repr

/-- A text message as the relay sees it: the optional `room` field extracted
by `mapper.readTree`, plus the raw payload that is re-broadcast verbatim. -/
structure ServerMsg where
  room : Option String
  payload : String
  deriving DecidableEq, Repr

/-- `root.has("room") ? root.get("room").asText() : "default"`. -/
def declaredRoom (msg : ServerMsg) : String := msg.room.getD "default"

/-- `rooms.computeIfAbsent(room, r -> ConcurrentHashMap.newKeySet()).add(session)`:
create the room's set if missing and add the session to it (a set add:
no duplicate is created). -/
def roomsInsert : List (String × List Nat) → String → Nat → List (String × List Nat)
  | [], r, s => [(r, [s])]
  | (r', ss) :: rest, r, s =>
    if r' = r then (r', if s ∈ ss then ss else s :: ss) :: rest
    else (r', ss) :: roomsInsert rest r s

/-- `sessionRoom.computeIfAbsent(session, s -> { ...; return room; })`: on the
session's first message, register it in the declared room and record the
binding; on every later message this is a no-op. -/
def bindSession (st : RelayState) (sess : Nat) (room : String) : RelayState :=
  match alookup st.sessionRoom sess with
  | some _ => st
  | none =>
    { rooms := roomsInsert st.rooms room sess
      sessionRoom := (sess, room) :: st.sessionRoom }

/-- The session set of a room, `rooms.getOrDefault(room, Collections.emptySet())`. -/
def roomMembers (st : RelayState) (r : String) : List Nat :=
  (alookup st.rooms r).getD []

/-- `broadcast(room, payload)`: attempt one send of the raw payload to every
member of the room whose channel `isOpen()`; the result lists the
(recipient, payload) send attempts in iteration order.  A failing send is
caught and ignored per recipient, so it never stops the loop — delivery is
best-effort and exactly the attempts below are made. -/
def broadcast (st : RelayState) (room : String) (payload : String) (isOpen : Nat → Bool) :
    List (Nat × String) :=
  ((roomMembers st room).filter isOpen).map (fun s => (s, payload))

/-- `handleTextMessage(session, message)`: extract the declared room, bind the
session to it if this is the session's first message, then broadcast the raw
payload within the declared room.  Returns the new relay state and the list
of send attempts. -/
def handleTextMessage (st : RelayState) (sess : Nat) (msg : ServerMsg) (isOpen : Nat → Bool) :
    RelayState × List (Nat × String) :=
  let room := declaredRoom msg
  let st1 := bindSession st sess room
  (st1, broadcast st1 room msg.payload isOpen)

/-- `afterConnectionClosed(session, status)`: drop the session-to-room binding,
remove the session from its room's set, and delete the room entry when the
set becomes empty. -/
def afterConnectionClosed (st : RelayState) (sess : Nat) : RelayState :=
  match alookup st.sessionRoom sess with
  | none => st
  | some room =>
    let sr := aerase st.sessionRoom sess
    match alookup st.rooms room with
    | none => { rooms := st.rooms, sessionRoom := sr }
    | some ss =>
      let ss' := ss.erase sess
      if ss'.isEmpty then { rooms := aerase st.rooms room, sessionRoom := sr }
      else { rooms := aset st.rooms room ss', sessionRoom := sr }

/-- Well-formedness of the relay's membership structures: room and session
keys are unique, every room's session set is nonempty and duplicate-free and
every session in it is bound to that room, and every bound session is a
member of its room's set. -/
def RelayInv (st : RelayState) : Prop :=
  (st.rooms.map Prod.fst).Nodup ∧
  (st.sessionRoom.map Prod.fst).Nodup ∧
  (∀ p ∈ st.rooms, p.2 ≠ [] ∧ p.2.Nodup ∧ ∀ s ∈ p.2, alookup st.sessionRoom s = some p.1) ∧
  (∀ q ∈ st.sessionRoom, ∃ ss, alookup st.rooms q.2 = some ss ∧ q.1 ∈ ss)

instance (st : RelayState) : Decidable (RelayInv st) := by
  unfold RelayInv
  infer_instance

/-- Every room's session set is duplicate-free (the fragment of `RelayInv`
needed to count deliveries). -/
def roomsWF (st : RelayState) : Prop := ∀ p ∈ st.rooms, p.2.Nodup

instance (st : RelayState) : Decidable (roomsWF st) := by
  unfold roomsWF
  infer_instance

end Relay

namespace Client

/-- A coordinate pair.  GeoJSON stores `[lng, lat]`, Leaflet `LatLng`s store
`(lat, lng)`; `swapPt` models `coordsToLatLngs` / `latLngsToCoords` on one
point.  Coordinate values are opaque to the collaboration core (it only
stores and copies them), so they are modelled as integers. -/
def Pt : Type := Int × Int
deriving instance DecidableEq, Repr for Pt

/-- Axis swap between GeoJSON `[lng, lat]` order and Leaflet `(lat, lng)` order. -/
def swapPt (p : Pt) : Pt := (p.2, p.1)

/-- The GeoJSON geometries the collaboration core produces and consumes.
`other` stands for a geometry object whose `type` Leaflet's
`geometryToLayer` rejects by throwing `Invalid GeoJSON object.` (for
example a corrupt or misspelled type tag). -/
inductive Geometry where
  | point (c : Pt)
  | lineString (cs : List Pt)
  | polygon (rings : List (List Pt))
  | multiLineString (ls : List (List Pt))
  | other (typ : String)
  deriving DecidableEq, Repr

/-- The flat property map of a serialized feature.  `none` models an absent
field.  `_am` is the optional AwesomeMarkers icon descriptor
`{iconName, color}` for point features. -/
structure FeatProps where
  _id : Option String := none
  _createdBy : Option String := none
  _createdAt : Option String := none
  _updatedBy : Option String := none
  _updatedAt : Option String := none
  stroke : Option String := none
  opacity : Option Rat := none
  dashArray : Option String := none
  fill : Option String := none
  label : Option String := none
  popup : Option String := none
  _am : Option (String × String) := none
  deriving DecidableEq, Repr

def emptyProps : FeatProps := {}

/-- A serialized feature: a geometry plus a flat property map, either of
which a foreign message may omit. -/
structure Feat where
  geometry : Option Geometry := none
  properties : Option FeatProps := none
  deriving DecidableEq, Repr

/-- The Leaflet class of a layer in the `drawn` feature group: `L.Marker`,
`L.Polyline`, or `L.Polygon` (a subclass of `L.Polyline`). -/
inductive LKind where
  | marker
  | line
  | poly
  deriving DecidableEq, Repr

/-- `layer instanceof L.Polyline` (polygons included). -/
def LKind.isPolyline : LKind → Bool
  | .marker => false
  | .line => true
  | .poly => true

/-- The latlngs payload held by a layer: a single position (marker), a flat
list (simple polyline, or a polygon ring passed to `setLatLngs`), or a
nested list (polygon rings, or a multi-polyline). -/
inductive LLs where
  | one (p : Pt)
  | flat (ps : List Pt)
  | nest (rs : List (List Pt))
  deriving DecidableEq, Repr

/-- The `options._meta` creation/update record of a layer. -/
structure Meta where
  createdBy : Option String := none
  createdAt : Option String := none
  updatedBy : Option String := none
  updatedAt : Option String := none
  deriving DecidableEq, Repr

/-- One layer of the `drawn` feature group — the client's feature store entry.
`feature` is the serialized feature Leaflet attaches to layers created via
`L.geoJSON` (`layer.feature`); layers drawn locally have none.  The style
fields mirror the subset of `layer.options` the collaboration core reads
and writes. -/
structure Layer where
  feature : Option Feat := none
  _id : Option String := none
  kind : LKind
  ll : LLs
  color : Option String := none
  opacity : Option Rat := none
  dashArray : Option String := none
  fillColor : Option String := none
  meta : Meta := {}
  tooltip : Option String := none
  popup : Option String := none
  _am : Option (String × String) := none
  deriving DecidableEq, Repr

/-- One participant-registry entry (`participants` map of `createCollab`). -/
structure Participant where
  name : Option String := none
  color : Option String := none
  self : Bool := false
  cursor : Option Pt := none
  lastView : Option (Pt × Int) := none
  deriving DecidableEq, Repr

/-- A remote user identity as carried in a message's `user` field; any part
may be missing in a foreign message. -/
structure User where
  id : Option String := none
  name : Option String := none
  color : Option String := none
  deriving DecidableEq, Repr

/-- A parsed inbound collaboration message: the common envelope plus every
type-specific field the handler inspects. -/
structure Msg where
  type : String := ""
  room : Option String := none
  user : Option User := none
  latlng : Option Pt := none
  center : Option Pt := none
  zoom : Option Int := none
  feature : Option Feat := none
  id : Option String := none
  deriving DecidableEq, Repr

/-- What arrives on the wire: either unparseable text (`JSON.parse` throws,
the handler drops it) or a parsed message. -/
inductive RawMsg where
  | malformed
  | parsed (m : Msg)
  deriving DecidableEq, Repr

/-- The type-specific payload of an outbound message built by `send`. -/
inductive OutPayload where
  | empty
  | featureP (f : Feat)
  | removeId (id : String)
  | cursorAt (p : Pt)
  | viewAt (c : Pt) (z : Int)
  deriving DecidableEq, Repr

/-- An outbound message: `{type, room, user: {id, name, color}, ...payload}`. -/
structure OutMsg where
  type : String
  room : String
  userId : String
  userName : String
  userColor : String
  payload : OutPayload
  deriving DecidableEq, Repr

/-- The whole client-side collaboration state: identity, transport status,
participant registry, the `drawn` feature store, undo/redo stacks (a
snapshot is the parsed form of the JSON string the code stores; `now` is
the current wall-clock timestamp string, constant within a handler run),
the two re-entrancy flags, a deterministic stand-in for `uuidv4` fresh-id
generation (`nextId`), and two observation channels: `outbox` records every
message handed to `ws.send`, `commitCount` counts snapshot pushes (the
spec's spy/counter instrumentation). -/
structure ClientState where
  myId : String
  myName : String := ""
  myColor : String := ""
  room : String := "default"
  connected : Bool := true
  now : String := ""
  participants : List (String × Participant) := []
  drawn : List Layer := []
  nextId : Nat := 0
  undoStack : List (List Feat) := []
  redoStack : List (List Feat) := []
  isRestoring : Bool := false
  isRemoteApplying : Bool := false
  outbox : List OutMsg := []
  commitCount : Nat := 0
  deriving DecidableEq, Repr

/-- JavaScript truthiness of an optional string: absent, `null` and `""` are
falsy. -/
def truthyS (o : Option String) : Bool :=
  match o with
  | none => false
  | some s => s ≠ ""

/-- JavaScript `x || d` for an optional string `x` and default string `d`. -/
def orDefault (o : Option String) (d : String) : String :=
  match o with
  | none => d
  | some s => if s = "" then d else s

/-- JavaScript `x || null` for an optional string: keep only truthy values. -/
def orNull (o : Option String) : Option String :=
  match o with
  | none => none
  | some s => if s = "" then none else some s

/-- The Leaflet default opacity used via `p.opacity ?? 0.7`. -/
def opacityDefault : Rat := 7 / 10

/-- The deterministic stand-in for `'f_' + uuidv4()`. -/
def freshId (n : Nat) : String := "f_gen" ++ toString n

/-- Leaflet `geometryToLayer` restricted to the geometries this application
produces: which layer class is instantiated and with which latlngs.
`none` models the `throw new Error('Invalid GeoJSON object.')` branch. -/
def geometryToLayer : Geometry → Option (LKind × LLs)
  | .point c => some (.marker, .one (swapPt c))
  | .lineString cs => some (.line, .flat (cs.map swapPt))
  | .polygon rings => some (.poly, .nest (rings.map (fun r => r.map swapPt)))
  | .multiLineString ls => some (.line, .nest (ls.map (fun r => r.map swapPt)))
  | .other _ => none

/-- Leaflet `layer.toGeoJSON()` geometry part: convert the layer's current
latlngs back to a GeoJSON geometry according to the layer class.  The
mixed-shape fallbacks in the last two equations are unreachable for layers
built by this model but keep the function total. -/
def layerGeometry (k : LKind) (l : LLs) : Geometry :=
  match k, l with
  | .marker, .one p => .point (swapPt p)
  | .line, .flat ps => .lineString (ps.map swapPt)
  | .line, .nest rs => .multiLineString (rs.map (fun r => r.map swapPt))
  | .poly, .nest rs => .polygon (rs.map (fun r => r.map swapPt))
  | .poly, .flat ps => .polygon [ps.map swapPt]
  | .marker, .flat ps => .point (swapPt (ps.headD (0, 0)))
  | .marker, .nest rs => .point (swapPt ((rs.headD []).headD (0, 0)))
  | .line, .one p => .lineString [swapPt p]
  | .poly, .one p => .polygon [[swapPt p]]

/-- Leaflet `setLatLngs` as used by `editFeatureFromRemote`: a plain polyline
stores whatever it is given; a polygon wraps a flat list into a single ring.
Markers have no `setLatLngs` (the caller guards on it). -/
def setLatLngs (k : LKind) (cur : LLs) (x : LLs) : LLs :=
  match k with
  | .marker => cur
  | .line => x
  | .poly =>
    match x with
    | .flat ps => .nest [ps]
    | y => y

/-- The shared `pointToLayer`/`onEachFeature` work of `addFeatureFromRemote`
and `restoreFromGeoJSON`: build the layer for one deserialized feature.
`pointToLayer` applies the AwesomeMarkers icon to markers
(with `_am.color || '#d33'`); `onEachFeature` then attaches the layer,
ensures it has an id (`'f_' + uuidv4()`, consuming one fresh id), overrides
it with the serialized `_id` when that is truthy, copies the creation and
update metadata, re-applies stroke/fill style to polylines
(`p.stroke || '#ff4757'`, `p.opacity ?? 0.7`, `p.dashArray || null`,
`p.fill || '#2ed573'` for polygons), and binds the label tooltip and popup
when those properties are truthy. -/
def materializeFeature (n : Nat) (f : Feat) (k : LKind) (l : LLs) : Layer :=
  let p := f.properties.getD emptyProps
  { feature := some f
    _id := some (orDefault p._id (freshId n))
    kind := k
    ll := l
    color := if k.isPolyline then some (orDefault p.stroke "#ff4757") else none
    opacity := if k.isPolyline then some (p.opacity.getD opacityDefault) else none
    dashArray := if k.isPolyline then orNull p.dashArray else none
    fillColor := if k = .poly then some (orDefault p.fill "#2ed573") else none
    meta :=
      { createdBy := p._createdBy
        createdAt := p._createdAt
        updatedBy := p._updatedBy
        updatedAt := p._updatedAt }
    tooltip := orNull p.label
    popup := orNull p.popup
    _am :=
      match k, p._am with
      | .marker, some a => some (a.1, if a.2 = "" then "#d33" else a.2)
      | _, _ => none }

/-- `addFeatureFromRemote(feat)`: run the feature through `L.geoJSON` with
the shared callbacks and add the resulting layer to the map and the `drawn`
group (appended at the end).  A feature without a geometry produces no
layer and no error; a geometry Leaflet rejects makes `L.geoJSON` throw. -/
def addFeatureFromRemote (cs : ClientState) (f : Feat) : ClientState × Option String :=
  match f.geometry with
  | none => (cs, none)
  | some g =>
    match geometryToLayer g with
    | none => (cs, some "Invalid GeoJSON object.")
    | some kl =>
      ({ cs with
          drawn := cs.drawn ++ [materializeFeature cs.nextId f kl.1 kl.2]
          nextId := cs.nextId + 1 }, none)

/-- `findLayerById(id)`: iterate `drawn`, remembering every layer whose
`options._id` equals the id — the last match wins. -/
def findLayerById (drawn : List Layer) (id : String) : Option Layer :=
  drawn.foldl (fun acc l => if l._id = some id then some l else acc) none

/-- Replace the last occurrence of a layer object in `drawn` (the one
`findLayerById` returned) with its mutated version. -/
def replaceLast (drawn : List Layer) (l l' : Layer) : List Layer :=
  (drawn.reverse.replace l l').reverse

/-- `editFeatureFromRemote(feat)`: a falsy serialized `_id` or an unknown id
degrades to `addFeatureFromRemote`.  Otherwise update the found layer in
place: `setLatLngs` for LineString/Polygon geometry, re-apply style to
polylines, bind or unbind tooltip and popup by the truthiness of the
serialized `label`/`popup`, and overwrite `options._meta` from the
serialized metadata. -/
def editFeatureFromRemote (cs : ClientState) (f : Feat) : ClientState × Option String :=
  let idOpt := f.properties.bind (fun p => p._id)
  if truthyS idOpt = false then addFeatureFromRemote cs f
  else
    let id := idOpt.getD ""
    match findLayerById cs.drawn id with
    | none => addFeatureFromRemote cs f
    | some l =>
      let p := f.properties.getD emptyProps
      let l1 : Layer :=
        match f.geometry with
        | some (.lineString cs') =>
          if l.kind.isPolyline then { l with ll := setLatLngs l.kind l.ll (.flat (cs'.map swapPt)) } else l
        | some (.polygon rings) =>
          if l.kind.isPolyline then
            { l with ll := setLatLngs l.kind l.ll (.nest (rings.map (fun r : List Pt => r.map swapPt))) }
          else l
        | _ => l
      let l2 : Layer :=
        if l1.kind.isPolyline then
          { l1 with
              color := some (orDefault p.stroke "#ff4757")
              opacity := some (p.opacity.getD opacityDefault)
              dashArray := orNull p.dashArray
              fillColor := if l1.kind = LKind.poly then some (orDefault p.fill "#2ed573") else l1.fillColor }
        else l1
      let l3 :=
        { l2 with
            tooltip := if truthyS p.label then p.label else none
            popup := if truthyS p.popup then p.popup else none
            meta :=
              { createdBy := p._createdBy
                createdAt := p._createdAt
                updatedBy := p._updatedBy
                updatedAt := p._updatedAt } }
      ({ cs with drawn := replaceLast cs.drawn l l3 }, none)

/-- `removeFeatureById(id)`: remove the found layer from the `drawn` group;
an unknown id is a no-op. -/
def removeFeatureById (cs : ClientState) (id : String) : ClientState :=
  match findLayerById cs.drawn id with
  | none => cs
  | some l => { cs with drawn := (cs.drawn.reverse.erase l).reverse }

/-- One layer of `collectGeoJSON()`: `layer.toGeoJSON()` yields the current
geometry plus the properties of the attached serialized feature (empty for
locally drawn layers); the code then persists the current stroke/fill style
onto polylines, the label and popup when bound, and the marker icon
descriptor.  Note that `_id` and the `_meta` record are not written here —
they survive only through `layer.feature`. -/
def collectOne (l : Layer) : Feat :=
  let p0 := (l.feature.bind (fun f => f.properties)).getD emptyProps
  let p1 :=
    if l.kind.isPolyline then
      { p0 with
          stroke := some (orDefault l.color "#ff4757")
          opacity := some (l.opacity.getD opacityDefault)
          dashArray := orNull l.dashArray
          fill := if l.kind = LKind.poly then some (orDefault l.fillColor "#2ed573") else p0.fill }
    else p0
  let p2 :=
    match l.tooltip with
    | some t => { p1 with label := some t }
    | none => p1
  let p3 :=
    match l.popup with
    | some t => { p2 with popup := some t }
    | none => p2
  let p4 :=
    if l.kind = LKind.marker ∧ l._am.isSome then { p3 with _am := l._am } else p3
  { geometry := some (layerGeometry l.kind l.ll), properties := some p4 }

/-- `collectGeoJSON()`: serialize every layer of the `drawn` group, in
iteration order, into a FeatureCollection. -/
def collectGeoJSON (drawn : List Layer) : List Feat := drawn.map collectOne

/-- `toSingleGeoJSON(layer)`: the transport serialization of one layer.  On
top of `layer.toGeoJSON()` it persists the id (`options._id`, or a fresh
one when falsy), the creation/update metadata with fallbacks to the local
identity and the current time, the style, text and icon fields — the same
fields `collectOne` persists.  The trailing re-assignments in the source
overwrite these fields with identical values when the metadata is truthy
and are therefore not repeated here. -/
def toSingleGeoJSON (n : Nat) (myName now : String) (l : Layer) : Feat :=
  let p0 := (l.feature.bind (fun f => f.properties)).getD emptyProps
  let createdBy := orDefault l.meta.createdBy myName
  let createdAt := orDefault l.meta.createdAt now
  let p1 :=
    { p0 with
        _id := some (orDefault l._id (freshId n))
        _createdBy := some createdBy
        _createdAt := some createdAt
        _updatedBy := some (orDefault l.meta.updatedBy createdBy)
        _updatedAt := some (orDefault l.meta.updatedAt createdAt) }
  let p2 :=
    if l.kind.isPolyline then
      { p1 with
          stroke := some (orDefault l.color "#ff4757")
          opacity := some (l.opacity.getD opacityDefault)
          dashArray := orNull l.dashArray
          fill := if l.kind = LKind.poly then some (orDefault l.fillColor "#2ed573") else p1.fill }
    else p1
  let p3 :=
    match l.tooltip with
    | some t => { p2 with label := some t }
    | none => p2
  let p4 :=
    match l.popup with
    | some t => { p3 with popup := some t }
    | none => p3
  let p5 :=
    if l.kind = LKind.marker ∧ l._am.isSome then { p4 with _am := l._am } else p4
  { geometry := some (layerGeometry l.kind l.ll), properties := some p5 }

/-- `HISTORY_LIMIT`. -/
def HISTORY_LIMIT : Nat := 100

/-- `undoStack.push(state); if(undoStack.length > HISTORY_LIMIT) undoStack.shift()`:
push at the top (the end of the list) and evict the oldest entry (the head)
when over capacity. -/
def pushLimit (l : List (List Feat)) (x : List Feat) : List (List Feat) :=
  let l2 := l ++ [x]
  if HISTORY_LIMIT < l2.length then l2.drop 1 else l2

/-- `snapshot()`: a no-op while restoring; otherwise serialize the whole
feature store, push it onto the undo stack (bounded), and clear the redo
stack.  `commitCount` is the observation counter for history commits. -/
def snapshot (cs : ClientState) : ClientState :=
  if cs.isRestoring then cs
  else
    { cs with
        undoStack := pushLimit cs.undoStack (collectGeoJSON cs.drawn)
        redoStack := []
        commitCount := cs.commitCount + 1 }

/-- `canUndo()`: at least two snapshots must exist — the oldest snapshot is
the floor. -/
def canUndo (cs : ClientState) : Bool := decide (1 < cs.undoStack.length)

/-- `canRedo()`. -/
def canRedo (cs : ClientState) : Bool := decide (0 < cs.redoStack.length)

/-- `restoreFromGeoJSON(geojson)` on a FeatureCollection: `L.geoJSON` visits
the features in order, skipping those without a geometry, and instantiates
each through the shared `pointToLayer`/`onEachFeature` callbacks, appending
to the `drawn` group.  A geometry Leaflet rejects makes it throw
mid-iteration: the layers already created stay, the remaining features are
not processed, and the error escapes (there is no handler around this call
in `loadState` or the import path). -/
def restoreFromGeoJSON (cs : ClientState) : List Feat → ClientState × Option String
  | [] => (cs, none)
  | f :: rest =>
    match f.geometry with
    | none => restoreFromGeoJSON cs rest
    | some g =>
      match geometryToLayer g with
      | none => (cs, some "Invalid GeoJSON object.")
      | some kl =>
        restoreFromGeoJSON
          { cs with
              drawn := cs.drawn ++ [materializeFeature cs.nextId f kl.1 kl.2]
              nextId := cs.nextId + 1 } rest

/-- `loadState(geojson)`: set the `isRestoring` flag, clear the live feature
store, replay the snapshot through the shared restore path, and reset the
flag in a `finally` — the reset happens whether or not the restore threw,
and a throw escapes past the `finally`. -/
def loadState (cs : ClientState) (fc : List Feat) : ClientState × Option String :=
  let cs1 := { cs with isRestoring := true, drawn := ([] : List Layer) }
  let r := restoreFromGeoJSON cs1 fc
  ({ r.1 with isRestoring := false }, r.2)

/-- `undo()`: a no-op when fewer than two snapshots exist; otherwise pop the
current top snapshot onto the redo stack and restore from the new top
(`JSON.parse` of the stored string, then `loadState`). -/
def undo (cs : ClientState) : ClientState × Option String :=
  if canUndo cs = false then (cs, none)
  else
    match cs.undoStack.getLast? with
    | none => (cs, none)
    | some curr =>
      let cs1 := { cs with undoStack := cs.undoStack.dropLast, redoStack := cs.redoStack ++ [curr] }
      match cs1.undoStack.getLast? with
      | none => (cs1, none)
      | some prev => loadState cs1 prev

/-- `redo()`: a no-op when the redo stack is empty; otherwise pop from the
redo stack, push onto the undo stack (no capacity check here, matching the
source), and restore from it. -/
def redo (cs : ClientState) : ClientState × Option String :=
  if canRedo cs = false then (cs, none)
  else
    match cs.redoStack.getLast? with
    | none => (cs, none)
    | some st =>
      loadState
        { cs with redoStack := cs.redoStack.dropLast, undoStack := cs.undoStack ++ [st] } st

/-- `ensureLayerId(layer)`: generate an id when the layer's `options._id` is
falsy, consuming one fresh id. -/
def ensureLayerId (n : Nat) (l : Layer) : Layer × Nat :=
  if truthyS l._id then (l, n) else ({ l with _id := some (freshId n) }, n + 1)

/-- `setMetaOnCreate(layer)`: ensure the id and stamp a fresh creation/update
metadata record with the local identity and the current time. -/
def setMetaOnCreate (myName now : String) (n : Nat) (l : Layer) : Layer × Nat :=
  let r := ensureLayerId n l
  ({ r.1 with
      meta :=
        { createdBy := some myName
          createdAt := some now
          updatedBy := some myName
          updatedAt := some now } }, r.2)

/-- `updateMetaOnEdit(layer)`: keep the creation metadata and refresh the
update metadata with the local identity and the current time. -/
def updateMetaOnEdit (myName now : String) (l : Layer) : Layer :=
  { l with
      meta :=
        { l.meta with updatedBy := some myName, updatedAt := some now } }

/-- `send(type, payload)`: silently dropped while not connected; otherwise
the envelope `{type, room, user: {id, name, color}}` plus the payload is
handed to `ws.send` (recorded in `outbox`; a transport throw is caught and
ignored). -/
def send (cs : ClientState) (type : String) (payload : OutPayload) : ClientState :=
  if cs.connected = false then cs
  else
    { cs with
        outbox := cs.outbox ++
          [{ type := type, room := cs.room, userId := cs.myId, userName := cs.myName,
             userColor := cs.myColor, payload := payload }] }

/-- `sendAdd(layer)`: suppressed while applying a remote message; otherwise
ensure the id, stamp creation metadata onto the layer (at position `k` of
the `drawn` group), and emit `feature:add` with the serialized layer. -/
def sendAdd (cs : ClientState) (k : Nat) : ClientState :=
  if cs.isRemoteApplying then cs
  else
    match cs.drawn[k]? with
    | none => cs
    | some l =>
      let r1 := ensureLayerId cs.nextId l
      let r2 := setMetaOnCreate cs.myName cs.now r1.2 r1.1
      let cs1 := { cs with drawn := cs.drawn.set k r2.1, nextId := r2.2 }
      send cs1 "feature:add" (.featureP (toSingleGeoJSON cs1.nextId cs.myName cs.now r2.1))

/-- `sendEdit(layer)`: suppressed while applying a remote message; a missing
layer is a no-op; otherwise refresh the update metadata and emit
`feature:edit` with the serialized layer. -/
def sendEdit (cs : ClientState) (k : Nat) : ClientState :=
  if cs.isRemoteApplying then cs
  else
    match cs.drawn[k]? with
    | none => cs
    | some l =>
      let l1 := updateMetaOnEdit cs.myName cs.now l
      let cs1 := { cs with drawn := cs.drawn.set k l1 }
      send cs1 "feature:edit" (.featureP (toSingleGeoJSON cs1.nextId cs.myName cs.now l1))

/-- `sendRemove(layer)`: suppressed while applying a remote message; a
missing layer is a no-op; emit `feature:remove` with the layer's id when
that id is truthy. -/
def sendRemove (cs : ClientState) (k : Nat) : ClientState :=
  if cs.isRemoteApplying then cs
  else
    match cs.drawn[k]? with
    | none => cs
    | some l =>
      match l._id with
      | some i => if i = "" then cs else send cs "feature:remove" (.removeId i)
      | none => cs

/-- The identity-bookkeeping prefix of `handle`: fetch or create the
participant entry for the sender and refresh its name and color. -/
def updateParticipant (cs : ClientState) (uid : String) (u : User) : ClientState :=
  let p0 := (Relay.alookup cs.participants uid).getD
    { name := u.name, color := u.color, self := false, cursor := none, lastView := none }
  { cs with
      participants :=
        Relay.aset cs.participants uid { p0 with name := u.name, color := u.color } }

/-- `renderPresence()` as far as state is concerned: it (re)inserts the self
participant `{name, color, self: true}` into the registry (the DOM work is
out of scope). -/
def renderPresence (cs : ClientState) : ClientState :=
  { cs with
      participants :=
        Relay.aset cs.participants cs.myId
          { name := some cs.myName, color := some cs.myColor, self := true,
            cursor := none, lastView := none } }

/-- The `cursor` branch: create the remote-cursor marker at the position or
move the existing one — either way the participant's cursor ends at
`msg.latlng`. -/
def setCursor (cs : ClientState) (uid : String) (ll : Pt) : ClientState :=
  match Relay.alookup cs.participants uid with
  | none => cs
  | some p =>
    { cs with participants := Relay.aset cs.participants uid { p with cursor := some ll } }

/-- The `view` branch: record the sender's last broadcast view. -/
def setLastView (cs : ClientState) (uid : String) (c : Pt) (z : Int) : ClientState :=
  match Relay.alookup cs.participants uid with
  | none => cs
  | some p =>
    { cs with participants := Relay.aset cs.participants uid { p with lastView := some (c, z) } }

/-- The `isRemoteApplying = true; try { body } finally { isRemoteApplying = false }`
pattern wrapped around every remote feature application: the flag is set for
the body and reset afterwards whether the body returned or threw; a throw
keeps propagating. -/
def applyingRemote (cs : ClientState) (body : ClientState → ClientState × Option String) :
    ClientState × Option String :=
  let r := body { cs with isRemoteApplying := true }
  ({ r.1 with isRemoteApplying := false }, r.2)

/-- `handle(msg)`: drop messages whose `user` is missing or has a falsy id;
update the participant registry from `user`; then dispatch on `type` —
`presence`/`hello` re-render presence, `cursor` and `view` update the
sender's transient state, and the three `feature:*` types apply the payload
to the feature store inside the `isRemoteApplying` guard.  A message whose
type-specific payload is falsy, or whose type is unknown, performs only the
identity bookkeeping. -/
def handle (cs : ClientState) (m : Msg) : ClientState × Option String :=
  match m.user with
  | none => (cs, none)
  | some u =>
    if truthyS u.id = false then (cs, none)
    else
      let uid := u.id.getD ""
      let cs1 := updateParticipant cs uid u
      match m.type with
      | "presence" => (renderPresence cs1, none)
      | "hello" => (renderPresence cs1, none)
      | "cursor" =>
        match m.latlng with
        | some ll => (setCursor cs1 uid ll, none)
        | none => (cs1, none)
      | "view" =>
        match m.center, m.zoom with
        | some c, some z => (setLastView cs1 uid c z, none)
        | _, _ => (cs1, none)
      | "feature:add" =>
        match m.feature with
        | some f => applyingRemote cs1 (fun s => addFeatureFromRemote s f)
        | none => (cs1, none)
      | "feature:edit" =>
        match m.feature with
        | some f => applyingRemote cs1 (fun s => editFeatureFromRemote s f)
        | none => (cs1, none)
      | "feature:remove" =>
        match m.id with
        | some i =>
          if i = "" then (cs1, none)
          else applyingRemote cs1 (fun s => (removeFeatureById s i, none))
        | none => (cs1, none)
      | _ => (cs1, none)

/-- `ws.onmessage`: drop unparseable text; drop a message whose `room` field
is truthy and differs from the locally bound room; drop a message whose
`user.id` equals the local identity's id; otherwise invoke `handle`.  The
boolean records whether `handle` was invoked. -/
def onmessage (cs : ClientState) (raw : RawMsg) : (ClientState × Option String) × Bool :=
  match raw with
  | .malformed => ((cs, none), false)
  | .parsed m =>
    if truthyS m.room = true ∧ m.room ≠ some cs.room then ((cs, none), false)
    else
      match m.user with
      | some u =>
        if u.id = some cs.myId then ((cs, none), false) else (handle cs m, true)
      | none => (handle cs m, true)

/-- A snapshot is restorable without error iff every feature with a geometry
has one Leaflet accepts. -/
def fcValid (fc : List Feat) : Bool :=
  fc.all (fun f =>
    match f.geometry with
    | some g => (geometryToLayer g).isSome
    | none => true)

/-- The number of features in a snapshot that carry a geometry (each one
becomes a layer and consumes one fresh id on restore). -/
def geomCount (fc : List Feat) : Nat :=
  (fc.filter (fun f => f.geometry.isSome)).length

/-- The layers a restore of the snapshot materializes, starting from fresh-id
counter `n` (the specification of `restoreFromGeoJSON` on an empty store). -/
def materializedList (n : Nat) : List Feat → List Layer
  | [] => []
  | f :: rest =>
    match f.geometry with
    | none => materializedList n rest
    | some g =>
      match geometryToLayer g with
      | none => []
      | some kl => materializeFeature n f kl.1 kl.2 :: materializedList (n + 1) rest

/-- The observation channels of the client state: outbound messages, commit
counter, and the two history stacks. -/
def histView (cs : ClientState) : List OutMsg × Nat × List (List Feat) × List (List Feat) :=
  (cs.outbox, cs.commitCount, cs.undoStack, cs.redoStack)

end Client

section Fixtures

open Relay Client

/-- The empty relay. -/
def relaySt0 : RelayState := { rooms := [], sessionRoom := [] }

/-- A relay state reached by a first message of session 1 declaring room "A"
followed by a first message of session 2 declaring room "B". -/
def relaySt2 : RelayState :=
  { rooms := [("A", [1]), ("B", [2])], sessionRoom := [(1, "A"), (2, "B")] }

/-- Every channel open. -/
def allOpen : Nat → Bool := fun _ => true

/-- A first message declaring room "A". -/
def msgA : ServerMsg := { room := some "A", payload := "hi" }

/-- A message declaring room "B". -/
def msgB : ServerMsg := { room := some "B", payload := "x" }

/-- A fresh client with identity id "me", bound to room "default". -/
def csFix : ClientState := { myId := "me" }

/-- A locally drawn line layer (no attached serialized feature). -/
def layerA : Layer :=
  { _id := some "f_a", kind := .line, ll := .flat [(1, 2), (3, 4)],
    color := some "#112233", opacity := some (1 / 2) }

/-- The client holding just `layerA`. -/
def csA : ClientState := { csFix with drawn := [layerA] }

/-- A serialized line feature with id "zz". -/
def featB : Feat :=
  { geometry := some (.lineString [(5, 6)]), properties := some { _id := some "zz" } }

/-- A `feature:add` message with a valid feature but no `user` field. -/
def mNoUser : Msg := { type := "feature:add", feature := some featB }

/-- A message whose `room` field is the empty string: it differs from the
bound room "default" but is falsy, so the room guard does not drop it. -/
def mC3 : Msg :=
  { type := "hello", room := some "", user := some { id := some "u2", name := some "Bea" } }

/-- A self-echoed message: `user.id` equals the local id. -/
def mSelf : Msg :=
  { type := "cursor", user := some { id := some "me" }, latlng := some (1, 2) }

/-- A remote `feature:add` message from user "u2". -/
def mC4 : Msg :=
  { type := "feature:add", user := some { id := some "u2" }, feature := some featB }

/-- A client currently applying a remote message. -/
def csFlag : ClientState := { csFix with isRemoteApplying := true }

/-- A snapshot containing a geometry Leaflet rejects. -/
def corruptFC : List Feat := [{ geometry := some (.other "Garbage") }]

/-- A client whose undo stack ends, after one pop, at the corrupt snapshot:
the state `undo()` runs `loadState` on. -/
def cs8 : ClientState := { csFix with drawn := [layerA], undoStack := [corruptFC, []] }

end Fixtures

open Relay Client

/-- A successful lookup's entry is in the list. -/
theorem alookup_mem {α β : Type} [DecidableEq α] (l : List (α × β)) (k : α) (v : β)
    (h : alookup l k = some v) : (k, v) ∈ l := by
  induction l with
  | nil => simp [alookup] at h
  | cons e rest ih =>
    obtain ⟨k', v'⟩ := e
    by_cases hk : k' = k
    · rw [alookup, if_pos hk] at h
      obtain rfl := Option.some.inj h
      subst hk
      exact List.mem_cons_self _ _
    · rw [alookup, if_neg hk] at h
      exact List.mem_cons_of_mem _ (ih h)

/-- A lookup in a key-unique association list finds the unique entry. -/
theorem alookup_of_mem_nodup {α β : Type} [DecidableEq α] (l : List (α × β)) (k : α) (v : β)
    (hk : (l.map Prod.fst).Nodup) (h : (k, v) ∈ l) : alookup l k = some v := by
  induction l with
  | nil => simp at h
  | cons e rest ih =>
    obtain ⟨k', v'⟩ := e
    rw [List.map_cons, List.nodup_cons] at hk
    obtain ⟨hk1, hk2⟩ := hk
    rcases List.mem_cons.mp h with h2 | h2
    · obtain ⟨h3, h4⟩ := Prod.mk.inj h2.symm
      subst h3
      subst h4
      rw [alookup, if_pos rfl]
    · have hne : k' ≠ k := by
        intro he
        subst he
        exact hk1 (List.mem_map.mpr ⟨(k', v), h2, rfl⟩)
      rw [alookup, if_neg hne]
      exact ih hk2 h2

/-- Removing a key yields a sublist. -/
theorem aerase_sublist {α β : Type} [DecidableEq α] (l : List (α × β)) (k : α) :
    (aerase l k).Sublist l := by
  induction l with
  | nil => simp [aerase]
  | cons e rest ih =>
    obtain ⟨k', v'⟩ := e
    by_cases h : k' = k
    · rw [aerase, if_pos h]
      exact List.sublist_cons_self _ _
    · rw [aerase, if_neg h]
      exact ih.cons₂ _

/-- Membership after removing a key, in a key-unique association list. -/
theorem mem_aerase {α β : Type} [DecidableEq α] (l : List (α × β)) (k : α) (q : α × β)
    (hk : (l.map Prod.fst).Nodup) : q ∈ aerase l k ↔ q ∈ l ∧ q.1 ≠ k := by
  induction l with
  | nil => simp [aerase]
  | cons e rest ih =>
    obtain ⟨k', v'⟩ := e
    rw [List.map_cons, List.nodup_cons] at hk
    obtain ⟨hk1, hk2⟩ := hk
    by_cases h : k' = k
    · subst h
      rw [aerase, if_pos rfl]
      constructor
      · intro hq
        refine ⟨List.mem_cons_of_mem _ hq, ?_⟩
        intro he
        exact hk1 (List.mem_map.mpr ⟨q, hq, he⟩)
      · rintro ⟨hq, hne⟩
        rcases List.mem_cons.mp hq with h2 | h2
        · exact absurd (by rw [h2]) hne
        · exact h2
    · rw [aerase, if_neg h]
      constructor
      · intro hq
        rcases List.mem_cons.mp hq with h2 | h2
        · subst h2
          exact ⟨List.mem_cons_self _ _, by simpa using h⟩
        · obtain ⟨hm, hne⟩ := (ih hk2).mp h2
          exact ⟨List.mem_cons_of_mem _ hm, hne⟩
      · rintro ⟨hq, hne⟩
        rcases List.mem_cons.mp hq with h2 | h2
        · subst h2
          exact List.mem_cons_self _ _
        · exact List.mem_cons_of_mem _ ((ih hk2).mpr ⟨h2, hne⟩)

/-- After removing a key from a key-unique association list it is absent. -/
theorem alookup_aerase_self {α β : Type} [DecidableEq α] (l : List (α × β)) (k : α)
    (hk : (l.map Prod.fst).Nodup) : alookup (aerase l k) k = none := by
  rcases hl : alookup (aerase l k) k with _ | v
  · rfl
  · exact absurd rfl ((mem_aerase l k (k, v) hk).mp (alookup_mem _ _ _ hl)).2

/-- Removing one key leaves lookups of other keys unchanged. -/
theorem alookup_aerase_ne {α β : Type} [DecidableEq α] (l : List (α × β)) (k k' : α)
    (h : k' ≠ k) : alookup (aerase l k) k' = alookup l k' := by
  induction l with
  | nil => rfl
  | cons e rest ih =>
    obtain ⟨k0, v0⟩ := e
    by_cases h0 : k0 = k
    · subst h0
      rw [aerase, if_pos rfl, alookup, if_neg (fun he => h he.symm)]
    · rw [aerase, if_neg h0]
      by_cases h1 : k0 = k'
      · rw [alookup, if_pos h1, alookup, if_pos h1]
      · rw [alookup, if_neg h1, alookup, if_neg h1, ih]

/-- Updating a key makes its lookup return the new value. -/
theorem alookup_aset_self {α β : Type} [DecidableEq α] (l : List (α × β)) (k : α) (v : β) :
    alookup (aset l k v) k = some v := by
  induction l with
  | nil => simp [aset, alookup]
  | cons e rest ih =>
    obtain ⟨k0, v0⟩ := e
    by_cases h0 : k0 = k
    · rw [aset, if_pos h0, alookup, if_pos rfl]
    · rw [aset, if_neg h0, alookup, if_neg h0, ih]

/-- Updating one key leaves lookups of other keys unchanged. -/
theorem alookup_aset_ne {α β : Type} [DecidableEq α] (l : List (α × β)) (k k' : α) (v : β)
    (h : k' ≠ k) : alookup (aset l k v) k' = alookup l k' := by
  induction l with
  | nil =>
    show alookup [(k, v)] k' = none
    rw [alookup, if_neg (fun he => h he.symm)]
    rfl
  | cons e rest ih =>
    obtain ⟨k0, v0⟩ := e
    by_cases h0 : k0 = k
    · subst h0
      rw [aset, if_pos rfl, alookup, if_neg (fun he => h he.symm), alookup,
        if_neg (fun he => h he.symm)]
    · rw [aset, if_neg h0]
      by_cases h1 : k0 = k'
      · rw [alookup, if_pos h1, alookup, if_pos h1]
      · rw [alookup, if_neg h1, alookup, if_neg h1, ih]

/-- Updating a present key does not change the key list. -/
theorem keys_aset {α β : Type} [DecidableEq α] (l : List (α × β)) (k : α) (v : β)
    (h : k ∈ l.map Prod.fst) : (aset l k v).map Prod.fst = l.map Prod.fst := by
  induction l with
  | nil => simp at h
  | cons e rest ih =>
    obtain ⟨k0, v0⟩ := e
    by_cases h0 : k0 = k
    · rw [aset, if_pos h0, List.map_cons, List.map_cons, h0]
    · rw [aset, if_neg h0, List.map_cons, List.map_cons, ih]
      rw [List.map_cons, List.mem_cons] at h
      rcases h with h | h
      · exact absurd h.symm h0
      · exact h

/-- Every entry after an update in a key-unique association list is either the
updated entry or an untouched entry with a different key. -/
theorem mem_aset {α β : Type} [DecidableEq α] (l : List (α × β)) (k : α) (v : β) (q : α × β)
    (hk : (l.map Prod.fst).Nodup) (hq : q ∈ aset l k v) :
    q = (k, v) ∨ (q ∈ l ∧ q.1 ≠ k) := by
  induction l with
  | nil =>
    rw [aset] at hq
    exact Or.inl (List.mem_singleton.mp hq)
  | cons e rest ih =>
    obtain ⟨k0, v0⟩ := e
    rw [List.map_cons, List.nodup_cons] at hk
    obtain ⟨hk1, hk2⟩ := hk
    by_cases h0 : k0 = k
    · subst h0
      rw [aset, if_pos rfl] at hq
      rcases List.mem_cons.mp hq with h2 | h2
      · exact Or.inl h2
      · refine Or.inr ⟨List.mem_cons_of_mem _ h2, ?_⟩
        intro he
        exact hk1 (List.mem_map.mpr ⟨q, h2, he⟩)
    · rw [aset, if_neg h0] at hq
      rcases List.mem_cons.mp hq with h2 | h2
      · subst h2
        exact Or.inr ⟨List.mem_cons_self _ _, by simpa using h0⟩
      · rcases ih hk2 h2 with h3 | ⟨h3, h4⟩
        · exact Or.inl h3
        · exact Or.inr ⟨List.mem_cons_of_mem _ h3, h4⟩

/-- An entry with a different key survives an update. -/
theorem mem_aset_of_ne {α β : Type} [DecidableEq α] (l : List (α × β)) (k : α) (v : β)
    (q : α × β) (hq : q ∈ l) (hne : q.1 ≠ k) : q ∈ aset l k v := by
  induction l with
  | nil => simp at hq
  | cons e rest ih =>
    obtain ⟨k0, v0⟩ := e
    by_cases h0 : k0 = k
    · rw [aset, if_pos h0]
      rcases List.mem_cons.mp hq with h2 | h2
      · exact absurd (by rw [h2, h0]) hne
      · exact List.mem_cons_of_mem _ h2
    · rw [aset, if_neg h0]
      rcases List.mem_cons.mp hq with h2 | h2
      · subst h2
        exact List.mem_cons_self _ _
      · exact List.mem_cons_of_mem _ (ih h2)

/-- Adding a session to a room's set keeps every set duplicate-free. -/
theorem roomsWF_roomsInsert (rooms : List (String × List Nat)) (r : String) (s : Nat)
    (h : ∀ p ∈ rooms, p.2.Nodup) : ∀ p ∈ roomsInsert rooms r s, p.2.Nodup := by
  induction rooms with
  | nil =>
    intro p hp
    simp only [roomsInsert, List.mem_singleton] at hp
    subst hp
    simp
  | cons e rest ih =>
    obtain ⟨r', ss⟩ := e
    intro p hp
    by_cases hr : r' = r
    · rw [roomsInsert, if_pos hr] at hp
      rcases List.mem_cons.mp hp with hp | hp
      · subst hp
        by_cases hs : s ∈ ss
        · simpa [hs] using h (r', ss) (List.mem_cons_self _ _)
        · simpa [hs] using List.Nodup.cons hs (h (r', ss) (List.mem_cons_self _ _))
      · exact h p (List.mem_cons_of_mem _ hp)
    · rw [roomsInsert, if_neg hr] at hp
      rcases List.mem_cons.mp hp with hp | hp
      · subst hp
        exact h (r', ss) (List.mem_cons_self _ _)
      · exact ih (fun q hq => h q (List.mem_cons_of_mem _ hq)) p hp

/-- Binding a session preserves well-formed room sets. -/
theorem roomsWF_bindSession (st : RelayState) (sess : Nat) (room : String)
    (h : roomsWF st) : roomsWF (bindSession st sess room) := by
  unfold bindSession
  rcases alookup st.sessionRoom sess with _ | r
  · exact roomsWF_roomsInsert st.rooms room sess h
  · exact h

/-- A room's member list is duplicate-free in a well-formed relay. -/
theorem roomMembers_nodup (st : RelayState) (h : roomsWF st) (r : String) :
    (roomMembers st r).Nodup := by
  unfold roomMembers
  rcases hl : alookup st.rooms r with _ | ss
  · simp
  · simpa using h (r, ss) (alookup_mem _ _ _ hl)

/-- Counting deliveries in a fan-out over a duplicate-free member list:
exactly one per open member, none otherwise. -/
theorem count_fanout (l : List Nat) (hl : l.Nodup) (isOpen : Nat → Bool) (pay : String)
    (s : Nat) :
    ((l.filter isOpen).map (fun x => (x, pay))).count (s, pay) =
      if s ∈ l ∧ isOpen s = true then 1 else 0 := by
  induction l with
  | nil => simp
  | cons a t ih =>
    obtain ⟨ha, ht⟩ := List.nodup_cons.mp hl
    rw [List.filter_cons]
    by_cases ho : isOpen a
    · rw [if_pos ho, List.map_cons, List.count_cons, ih ht]
      by_cases hsa : s = a
      · subst hsa
        simp [ha, ho]
      · have has : ¬a = s := fun hh => hsa hh.symm
        simp [hsa, has, ho, List.mem_cons]
    · rw [if_neg ho, ih ht]
      by_cases hsa : s = a
      · subst hsa
        simp [ho]
      · simp [hsa, List.mem_cons]

/-- C1, counterexample to the claim as stated: on the very first message,
after binding session 1 into room "A", the fan-out delivers the payload to
session 1 itself — `broadcast` iterates every open session of the room with
no sender exclusion, so the sender does not "receive nothing". -/
theorem c1_counterexample :
    (handleTextMessage relaySt0 1 msgA allOpen).2 = [(1, "hi")] ∧
    1 ∈ roomMembers (handleTextMessage relaySt0 1 msgA allOpen).1 "A" := by
  constructor
  · rfl
  · decide

/-- C1 amended: after room binding the raw payload is broadcast unchanged to
every session currently in the declared room whose channel is open — the
sender included: each such session is sent the payload exactly once per
fan-out, every other session receives nothing, and every delivered payload
is the raw message (delivery stays best-effort: a per-recipient send
failure is caught and ignored). -/
theorem c1_amended (st : RelayState) (sess : Nat) (msg : ServerMsg) (isOpen : Nat → Bool)
    (h : roomsWF st) :
    (∀ e ∈ (handleTextMessage st sess msg isOpen).2, e.2 = msg.payload) ∧
    (∀ s : Nat,
      ((handleTextMessage st sess msg isOpen).2).count (s, msg.payload) =
        if s ∈ roomMembers (handleTextMessage st sess msg isOpen).1 (declaredRoom msg)
            ∧ isOpen s = true then 1 else 0) := by
  have hWF : roomsWF (bindSession st sess (declaredRoom msg)) :=
    roomsWF_bindSession st sess (declaredRoom msg) h
  constructor
  · intro e he
    simp only [handleTextMessage, broadcast, List.mem_map] at he
    obtain ⟨x, _, rfl⟩ := he
    rfl
  · intro s
    have hc := count_fanout (roomMembers (bindSession st sess (declaredRoom msg)) (declaredRoom msg))
      (roomMembers_nodup _ hWF _) isOpen msg.payload s
    simpa [handleTextMessage, broadcast] using hc

/-- C1 witness: in the concrete first-message fan-out, session 1 (open, a
member of room "A") is counted exactly once. -/
theorem c1_witness :
    roomsWF relaySt0 ∧
    ((handleTextMessage relaySt0 1 msgA allOpen).2).count (1, msgA.payload) =
      (if 1 ∈ roomMembers (handleTextMessage relaySt0 1 msgA allOpen).1 (declaredRoom msgA)
          ∧ allOpen 1 = true then 1 else 0) :=
  ⟨by decide, (c1_amended relaySt0 1 msgA allOpen (by decide)).2 1⟩

/-- C2, counterexample to the claim as stated: session 1 is bound to room "A"
(whose member set is exactly [1]), yet its later message declaring room "B"
is not routed to the stale room "A": the fan-out targets the declared room
"B" and delivers to session 2 only. -/
theorem c2_counterexample :
    alookup relaySt2.sessionRoom 1 = some "A" ∧
    roomMembers relaySt2 "A" = [1] ∧
    (handleTextMessage relaySt2 1 msgB allOpen).2 = [(2, "x")] ∧
    (handleTextMessage relaySt2 1 msgB allOpen).1 = relaySt2 := by
  refine ⟨by decide, by decide, rfl, by decide⟩

/-- C2 amended: the relay binds a session's room exactly once, from the room
field of the session's first message — a later message leaves the binding
and all membership structures unchanged — but the differing room field of a
later message is not ignored for routing: the broadcast targets the room
declared in that very message (the bound room is used only for membership
and close-time cleanup). -/
theorem c2_amended (st : RelayState) (sess : Nat) (msg : ServerMsg) (isOpen : Nat → Bool)
    (h : (alookup st.sessionRoom sess).isSome = true) :
    (handleTextMessage st sess msg isOpen).1 = st ∧
    (handleTextMessage st sess msg isOpen).2 =
      ((roomMembers st (declaredRoom msg)).filter isOpen).map (fun s => (s, msg.payload)) := by
  obtain ⟨r, hr⟩ := Option.isSome_iff_exists.mp h
  constructor <;> simp [handleTextMessage, bindSession, hr, broadcast]

/-- C2 witness: the bound session 1's message declaring room "B" leaves the
relay state unchanged and is delivered to room "B"'s member, session 2. -/
theorem c2_witness :
    (alookup relaySt2.sessionRoom 1).isSome = true ∧
    (handleTextMessage relaySt2 1 msgB allOpen).1 = relaySt2 ∧
    (handleTextMessage relaySt2 1 msgB allOpen).2 = [(2, "x")] := by
  have h := c2_amended relaySt2 1 msgB allOpen (by decide)
  exact ⟨by decide, h.1, h.2.trans (by decide)⟩

/-- A `none` lookup means the key is absent from the key list. -/
theorem not_mem_keys_of_alookup_none {α β : Type} [DecidableEq α] (l : List (α × β)) (k : α)
    (h : alookup l k = none) : k ∉ l.map Prod.fst := by
  induction l with
  | nil => simp
  | cons e rest ih =>
    obtain ⟨k0, v0⟩ := e
    by_cases h0 : k0 = k
    · rw [alookup, if_pos h0] at h
      exact absurd h (by simp)
    · rw [alookup, if_neg h0] at h
      simp only [List.map_cons, List.mem_cons]
      rintro (h2 | h2)
      · exact h0 h2.symm
      · exact ih h h2

/-- Closing an unbound session is a no-op. -/
theorem close_unbound (st : RelayState) (sess : Nat)
    (hb : alookup st.sessionRoom sess = none) : afterConnectionClosed st sess = st := by
  simp [afterConnectionClosed, hb]

/-- Closing a session bound to a room the relay has no entry for only drops
the binding. -/
theorem close_noroom (st : RelayState) (sess : Nat) (room : String)
    (hb : alookup st.sessionRoom sess = some room)
    (hroom : alookup st.rooms room = none) :
    afterConnectionClosed st sess =
      { rooms := st.rooms, sessionRoom := aerase st.sessionRoom sess } := by
  simp [afterConnectionClosed, hb, hroom]

/-- Closing the last session of a room removes the room entry. -/
theorem close_lastSession (st : RelayState) (sess : Nat) (room : String) (ss : List Nat)
    (hb : alookup st.sessionRoom sess = some room)
    (hroom : alookup st.rooms room = some ss)
    (hE : (ss.erase sess).isEmpty = true) :
    afterConnectionClosed st sess =
      { rooms := aerase st.rooms room, sessionRoom := aerase st.sessionRoom sess } := by
  simp [afterConnectionClosed, hb, hroom, hE]

/-- Closing a session of a room with other members shrinks the room's set. -/
theorem close_shrink (st : RelayState) (sess : Nat) (room : String) (ss : List Nat)
    (hb : alookup st.sessionRoom sess = some room)
    (hroom : alookup st.rooms room = some ss)
    (hE : (ss.erase sess).isEmpty = false) :
    afterConnectionClosed st sess =
      { rooms := aset st.rooms room (ss.erase sess), sessionRoom := aerase st.sessionRoom sess } := by
  simp [afterConnectionClosed, hb, hroom, hE]

/-- `afterConnectionClosed` preserves the relay's membership invariant. -/
theorem relayInv_close (st : RelayState) (sess : Nat) (h : RelayInv st) :
    RelayInv (afterConnectionClosed st sess) := by
  obtain ⟨hrk, hsk, hR, hS⟩ := h
  have hsk' : ((aerase st.sessionRoom sess).map Prod.fst).Nodup :=
    ((aerase_sublist _ _).map Prod.fst).nodup hsk
  rcases hb : alookup st.sessionRoom sess with _ | room
  · rw [close_unbound st sess hb]
    exact ⟨hrk, hsk, hR, hS⟩
  · rcases hroom : alookup st.rooms room with _ | ss
    · rw [close_noroom st sess room hb hroom]
      refine ⟨hrk, hsk', ?_, ?_⟩
      · intro p hp
        obtain ⟨h1, h2, h3⟩ := hR p hp
        refine ⟨h1, h2, ?_⟩
        intro s hs
        have hbind := h3 s hs
        have hsne : s ≠ sess := by
          intro he
          subst he
          rw [hb] at hbind
          have hpr : room = p.1 := Option.some.inj hbind
          have hlp : alookup st.rooms p.1 = some p.2 :=
            alookup_of_mem_nodup st.rooms p.1 p.2 hrk hp
          rw [← hpr, hroom] at hlp
          exact Option.noConfusion hlp
        rw [alookup_aerase_ne _ _ _ hsne]
        exact hbind
      · intro q hq
        exact hS q ((mem_aerase _ _ _ hsk).mp hq).1
    · have hssE : (room, ss) ∈ st.rooms := alookup_mem _ _ _ hroom
      obtain ⟨hssne, hssnd, hssbind⟩ := hR (room, ss) hssE
      have hkeyroom : room ∈ st.rooms.map Prod.fst :=
        List.mem_map.mpr ⟨(room, ss), hssE, rfl⟩
      have hbindne : ∀ p ∈ st.rooms, p.1 ≠ room → ∀ s ∈ p.2,
          alookup (aerase st.sessionRoom sess) s = some p.1 := by
        intro p hp hpne s hs
        obtain ⟨_, _, h3⟩ := hR p hp
        have hbind := h3 s hs
        have hsne : s ≠ sess := by
          intro he
          subst he
          rw [hb] at hbind
          exact hpne (Option.some.inj hbind).symm
        rw [alookup_aerase_ne _ _ _ hsne]
        exact hbind
      by_cases hE : (ss.erase sess).isEmpty = true
      · rw [close_lastSession st sess room ss hb hroom hE]
        have hErased : ss.erase sess = [] := by
          rwa [List.isEmpty_iff] at hE
        refine ⟨((aerase_sublist _ _).map Prod.fst).nodup hrk, hsk', ?_, ?_⟩
        · intro p hp
          obtain ⟨hpm, hpne⟩ := (mem_aerase _ _ _ hrk).mp hp
          obtain ⟨h1, h2, _⟩ := hR p hpm
          exact ⟨h1, h2, hbindne p hpm hpne⟩
        · intro q hq
          obtain ⟨hqm, hqne⟩ := (mem_aerase _ _ _ hsk).mp hq
          obtain ⟨ss2, h2, hm⟩ := hS q hqm
          by_cases hq2 : q.2 = room
          · exfalso
            rw [hq2, hroom] at h2
            obtain rfl := Option.some.inj h2
            have hmem : q.1 ∈ ss.erase sess :=
              (List.Nodup.mem_erase_iff hssnd).mpr ⟨hqne, hm⟩
            rw [hErased] at hmem
            simp at hmem
          · refine ⟨ss2, ?_, hm⟩
            rw [alookup_aerase_ne _ _ _ hq2]
            exact h2
      · have hE2 : (ss.erase sess).isEmpty = false := by
          rwa [Bool.not_eq_true] at hE
        rw [close_shrink st sess room ss hb hroom hE2]
        refine ⟨?_, hsk', ?_, ?_⟩
        · rw [keys_aset _ _ _ hkeyroom]
          exact hrk
        · intro p hp
          rcases mem_aset _ _ _ _ hrk hp with h2 | ⟨h2, h3⟩
          · subst h2
            refine ⟨?_, hssnd.erase _, ?_⟩
            · intro he
              have he2 : ss.erase sess = [] := he
              rw [he2] at hE2
              simp at hE2
            · intro s hs
              obtain ⟨hsne, hsm⟩ := (List.Nodup.mem_erase_iff hssnd).mp hs
              rw [alookup_aerase_ne _ _ _ hsne]
              exact hssbind s hsm
          · obtain ⟨h4, h5, _⟩ := hR p h2
            exact ⟨h4, h5, hbindne p h2 h3⟩
        · intro q hq
          obtain ⟨hqm, hqne⟩ := (mem_aerase _ _ _ hsk).mp hq
          obtain ⟨ss2, h2, hm⟩ := hS q hqm
          by_cases hq2 : q.2 = room
          · rw [hq2, hroom] at h2
            obtain rfl := Option.some.inj h2
            refine ⟨ss.erase sess, ?_, ?_⟩
            · rw [hq2, alookup_aset_self]
            · rw [List.Nodup.mem_erase_iff hssnd]
              exact ⟨hqne, hm⟩
          · refine ⟨ss2, ?_, hm⟩
            rw [alookup_aset_ne _ _ _ _ hq2]
            exact h2

/-- Lookup of the room just inserted into. -/
theorem alookup_roomsInsert_self (rooms : List (String × List Nat)) (r : String) (s : Nat) :
    alookup (roomsInsert rooms r s) r =
      some (match alookup rooms r with
            | some ss => if s ∈ ss then ss else s :: ss
            | none => [s]) := by
  induction rooms with
  | nil => simp [roomsInsert, alookup]
  | cons e rest ih =>
    obtain ⟨r0, ss0⟩ := e
    by_cases h0 : r0 = r
    · subst h0
      simp [roomsInsert, alookup]
    · simp [roomsInsert, alookup, h0, ih]

/-- Inserting into one room leaves lookups of other rooms unchanged. -/
theorem alookup_roomsInsert_ne (rooms : List (String × List Nat)) (r : String) (s : Nat)
    (r' : String) (h : r' ≠ r) :
    alookup (roomsInsert rooms r s) r' = alookup rooms r' := by
  have hrr : ¬r = r' := fun he => h he.symm
  induction rooms with
  | nil => simp [roomsInsert, alookup, hrr]
  | cons e rest ih =>
    obtain ⟨r0, ss0⟩ := e
    by_cases h0 : r0 = r
    · subst h0
      simp [roomsInsert, alookup, hrr]
    · simp [roomsInsert, alookup, h0, ih]

/-- Keys present after a room insertion. -/
theorem keys_roomsInsert_subset (rooms : List (String × List Nat)) (r : String) (s : Nat)
    (k : String) (hk : k ∈ (roomsInsert rooms r s).map Prod.fst) :
    k ∈ rooms.map Prod.fst ∨ k = r := by
  induction rooms with
  | nil =>
    simp only [roomsInsert, List.map_cons, List.map_nil, List.mem_singleton] at hk
    exact Or.inr hk
  | cons e rest ih =>
    obtain ⟨r0, ss0⟩ := e
    by_cases h0 : r0 = r
    · rw [roomsInsert, if_pos h0] at hk
      simp only [List.map_cons, List.mem_cons] at hk ⊢
      exact Or.inl hk
    · rw [roomsInsert, if_neg h0] at hk
      simp only [List.map_cons, List.mem_cons] at hk ⊢
      rcases hk with hk | hk
      · exact Or.inl (Or.inl hk)
      · rcases ih hk with h2 | h2
        · exact Or.inl (Or.inr h2)
        · exact Or.inr h2

/-- Room insertion keeps the room keys unique. -/
theorem keys_roomsInsert_nodup (rooms : List (String × List Nat)) (r : String) (s : Nat)
    (hrk : (rooms.map Prod.fst).Nodup) : ((roomsInsert rooms r s).map Prod.fst).Nodup := by
  induction rooms with
  | nil => simp [roomsInsert]
  | cons e rest ih =>
    obtain ⟨r0, ss0⟩ := e
    rw [List.map_cons, List.nodup_cons] at hrk
    obtain ⟨h1, h2⟩ := hrk
    by_cases h0 : r0 = r
    · rw [roomsInsert, if_pos h0, List.map_cons, List.nodup_cons]
      exact ⟨h1, h2⟩
    · rw [roomsInsert, if_neg h0, List.map_cons, List.nodup_cons]
      refine ⟨?_, ih h2⟩
      intro hmem
      rcases keys_roomsInsert_subset rest r s r0 hmem with h3 | h3
      · exact h1 h3
      · exact h0 h3

/-- Every entry after a room insertion in a key-unique room list: untouched
with a different key, the updated entry, or the freshly created entry. -/
theorem mem_roomsInsert (rooms : List (String × List Nat)) (r : String) (s : Nat)
    (hrk : (rooms.map Prod.fst).Nodup) (p : String × List Nat) (hp : p ∈ roomsInsert rooms r s) :
    (p ∈ rooms ∧ p.1 ≠ r) ∨
    (∃ ss0, alookup rooms r = some ss0 ∧ p = (r, if s ∈ ss0 then ss0 else s :: ss0)) ∨
    (alookup rooms r = none ∧ p = (r, [s])) := by
  induction rooms with
  | nil =>
    rw [roomsInsert] at hp
    exact Or.inr (Or.inr ⟨rfl, List.mem_singleton.mp hp⟩)
  | cons e rest ih =>
    obtain ⟨r0, ss0⟩ := e
    rw [List.map_cons, List.nodup_cons] at hrk
    obtain ⟨hk1, hk2⟩ := hrk
    by_cases h0 : r0 = r
    · subst h0
      rw [roomsInsert, if_pos rfl] at hp
      rcases List.mem_cons.mp hp with h2 | h2
      · refine Or.inr (Or.inl ⟨ss0, ?_, h2⟩)
        rw [alookup, if_pos rfl]
      · refine Or.inl ⟨List.mem_cons_of_mem _ h2, ?_⟩
        intro he
        exact hk1 (List.mem_map.mpr ⟨p, h2, he⟩)
    · rw [roomsInsert, if_neg h0] at hp
      rcases List.mem_cons.mp hp with h2 | h2
      · subst h2
        exact Or.inl ⟨List.mem_cons_self _ _, by simpa using h0⟩
      · rcases ih hk2 h2 with ⟨h3, h4⟩ | ⟨ss1, h3, h4⟩ | ⟨h3, h4⟩
        · exact Or.inl ⟨List.mem_cons_of_mem _ h3, h4⟩
        · refine Or.inr (Or.inl ⟨ss1, ?_, h4⟩)
          rw [alookup, if_neg h0]
          exact h3
        · refine Or.inr (Or.inr ⟨?_, h4⟩)
          rw [alookup, if_neg h0]
          exact h3

/-- `handleTextMessage`'s binding step preserves the relay's membership
invariant — so `RelayInv` holds in every state the relay can reach. -/
theorem relayInv_bind (st : RelayState) (sess : Nat) (room : String) (h : RelayInv st) :
    RelayInv (bindSession st sess room) := by
  obtain ⟨hrk, hsk, hR, hS⟩ := h
  rcases hb : alookup st.sessionRoom sess with _ | r0
  case some =>
    simp only [bindSession, hb]
    exact ⟨hrk, hsk, hR, hS⟩
  case none =>
  simp only [bindSession, hb]
  have hsessk : sess ∉ st.sessionRoom.map Prod.fst := not_mem_keys_of_alookup_none _ _ hb
  refine ⟨keys_roomsInsert_nodup _ _ _ hrk, ?_, ?_, ?_⟩
  · rw [List.map_cons, List.nodup_cons]
    exact ⟨hsessk, hsk⟩
  · intro p hp
    rcases mem_roomsInsert _ _ _ hrk p hp with ⟨hpm, _⟩ | ⟨ss0, hss0, rfl⟩ | ⟨_, rfl⟩
    · obtain ⟨h1, h2, h3⟩ := hR p hpm
      refine ⟨h1, h2, ?_⟩
      intro s hs
      have hbind := h3 s hs
      have hne : sess ≠ s := by
        intro he
        subst he
        rw [hb] at hbind
        exact Option.noConfusion hbind
      rw [alookup, if_neg hne]
      exact hbind
    · obtain ⟨h1, h2, h3⟩ := hR (room, ss0) (alookup_mem _ _ _ hss0)
      by_cases hsm : sess ∈ ss0
      · exfalso
        have := h3 sess hsm
        rw [hb] at this
        exact Option.noConfusion this
      · simp only [if_neg hsm]
        refine ⟨List.cons_ne_nil _ _, List.nodup_cons.mpr ⟨hsm, h2⟩, ?_⟩
        intro s hs
        rcases List.mem_cons.mp hs with rfl | hs2
        · rw [alookup, if_pos rfl]
        · have hbind := h3 s hs2
          have hne : sess ≠ s := by
            intro he
            subst he
            rw [hb] at hbind
            exact Option.noConfusion hbind
          rw [alookup, if_neg hne]
          exact hbind
    · refine ⟨List.cons_ne_nil _ _, List.nodup_singleton _, ?_⟩
      intro s hs
      obtain rfl := List.mem_singleton.mp hs
      rw [alookup, if_pos rfl]
  · intro q hq
    rcases List.mem_cons.mp hq with rfl | hq2
    · rw [alookup_roomsInsert_self]
      rcases h0 : alookup st.rooms room with _ | ss0
      · exact ⟨[sess], rfl, List.mem_singleton_self _⟩
      · by_cases hsm : sess ∈ ss0
        · exact ⟨ss0, by simp [hsm], hsm⟩
        · exact ⟨sess :: ss0, by simp [hsm], List.mem_cons_self _ _⟩
    · obtain ⟨ss2, h2, hm⟩ := hS q hq2
      by_cases hq2r : q.2 = room
      · rw [hq2r] at h2
        rw [hq2r, alookup_roomsInsert_self, h2]
        by_cases hsm : sess ∈ ss2
        · exact ⟨ss2, by simp [hsm], hm⟩
        · exact ⟨sess :: ss2, by simp [hsm], List.mem_cons_of_mem _ hm⟩
      · refine ⟨ss2, ?_, hm⟩
        rw [alookup_roomsInsert_ne _ _ _ _ hq2r]
        exact h2

/-- In a well-formed relay, a session with no binding is in no room's set. -/
theorem not_mem_room_of_unbound (st : RelayState) (h : RelayInv st) (sess : Nat)
    (hb : alookup st.sessionRoom sess = none) (r : String) (ss : List Nat)
    (hr : alookup st.rooms r = some ss) : sess ∉ ss := by
  intro hm
  obtain ⟨_, _, hR, _⟩ := h
  have hbind := (hR (r, ss) (alookup_mem _ _ _ hr)).2.2 sess hm
  rw [hb] at hbind
  exact Option.noConfusion hbind

/-- In a well-formed relay, a room no session is bound to has no entry. -/
theorem noBinding_noRoom (st : RelayState) (h : RelayInv st) (r : String)
    (hb : ∀ q ∈ st.sessionRoom, q.2 ≠ r) : alookup st.rooms r = none := by
  rcases hl : alookup st.rooms r with _ | ss
  · rfl
  · exfalso
    obtain ⟨_, _, hR, _⟩ := h
    obtain ⟨hne, _, hbind⟩ := hR (r, ss) (alookup_mem _ _ _ hl)
    rcases ss with _ | ⟨s0, ss'⟩
    · exact hne rfl
    · have hb0 := hbind s0 (List.mem_cons_self _ _)
      exact hb (s0, r) (alookup_mem _ _ _ hb0) rfl

/-- Closing a session always drops its binding. -/
theorem close_unbinds (st : RelayState) (sess : Nat) (h : RelayInv st) :
    alookup (afterConnectionClosed st sess).sessionRoom sess = none := by
  obtain ⟨hrk, hsk, hR, hS⟩ := h
  rcases hb : alookup st.sessionRoom sess with _ | room
  · rw [close_unbound st sess hb]
    exact hb
  · rcases hroom : alookup st.rooms room with _ | ss
    · rw [close_noroom st sess room hb hroom]
      exact alookup_aerase_self _ _ hsk
    · by_cases hE : (ss.erase sess).isEmpty = true
      · rw [close_lastSession st sess room ss hb hroom hE]
        exact alookup_aerase_self _ _ hsk
      · rw [close_shrink st sess room ss hb hroom (by rwa [Bool.not_eq_true] at hE)]
        exact alookup_aerase_self _ _ hsk

/-- C9: closing a session removes it from the session-to-room map and from
every room's session set, it preserves the membership invariant (under
which every room entry is nonempty, so a room whose set would become empty
is removed entirely), and — the no-leak consequence — once no session is
bound to a room, the relay's membership structures contain no entry for
that room. -/
theorem c9_room_cleanup (st : RelayState) (h : RelayInv st) (sess : Nat) (r : String) :
    RelayInv (afterConnectionClosed st sess) ∧
    alookup (afterConnectionClosed st sess).sessionRoom sess = none ∧
    (∀ ss, alookup (afterConnectionClosed st sess).rooms r = some ss → sess ∉ ss) ∧
    ((∀ q ∈ (afterConnectionClosed st sess).sessionRoom, q.2 ≠ r) →
      alookup (afterConnectionClosed st sess).rooms r = none) := by
  have hinv := relayInv_close st sess h
  have hunb := close_unbinds st sess h
  exact ⟨hinv, hunb,
    fun ss hss => not_mem_room_of_unbound _ hinv sess hunb r ss hss,
    fun hb => noBinding_noRoom _ hinv r hb⟩

/-- C9 witness: closing session 1 (the only member of room "A") removes its
binding and leaves no entry for room "A". -/
theorem c9_witness :
    RelayInv relaySt2 ∧
    alookup (afterConnectionClosed relaySt2 1).sessionRoom 1 = none ∧
    alookup (afterConnectionClosed relaySt2 1).rooms "A" = none :=
  ⟨by decide, (c9_room_cleanup relaySt2 (by decide) 1 "A").2.1,
    (c9_room_cleanup relaySt2 (by decide) 1 "A").2.2.2 (by decide)⟩

/-- C5: the `isRemoteApplying` flag is reset on every exit path of a remote
feature application — for any body, normally returning or throwing — and the
`isRestoring` flag is reset on every exit path of `loadState`, including a
throwing restore; neither flag can remain set after the operation completes
or fails. -/
theorem c5_flags_cleared (cs cs2 : ClientState)
    (body : ClientState → ClientState × Option String) (fc : List Feat) :
    (applyingRemote cs body).1.isRemoteApplying = false ∧
    (loadState cs2 fc).1.isRestoring = false :=
  ⟨rfl, rfl⟩

/-- C10: a message whose `user` field is absent or lacks a (truthy) id is
dropped by `handle` before any bookkeeping: the state is returned unchanged
(participants, cursors and the feature store included) and no error is
raised, even when the message carries a valid feature payload. -/
theorem c10_missing_user_ignored (cs : ClientState) (m : Msg)
    (h : m.user = none ∨ ∃ u, m.user = some u ∧ (u.id = none ∨ u.id = some "")) :
    handle cs m = (cs, none) := by
  rcases h with h | ⟨u, hu, hid⟩
  · simp [handle, h]
  · rcases hid with h2 | h2 <;> simp [handle, hu, h2, truthyS]

/-- C10 witness: a `feature:add` message with a valid feature payload but no
`user` field leaves the fresh client state untouched. -/
theorem c10_witness :
    mNoUser.user = none ∧ handle csFix mNoUser = (csFix, none) :=
  ⟨rfl, c10_missing_user_ignored csFix mNoUser (Or.inl rfl)⟩

/-- C3, counterexample to the claim as stated: a message whose `room` field is
the empty string differs from the locally bound room "default", yet — because
the guard `msg.room && msg.room !== room` treats the empty string as falsy —
it is not ignored: `handle` is invoked and the participant registry changes. -/
theorem c3_counterexample :
    mC3.room = some "" ∧ csFix.room = "default" ∧ mC3.room ≠ some csFix.room ∧
    (onmessage csFix (.parsed mC3)).2 = true ∧
    ((onmessage csFix (.parsed mC3)).1.1).participants ≠ csFix.participants := by
  refine ⟨rfl, rfl, by decide, rfl, by decide⟩

/-- C3 amended: a message whose `room` field is present, non-empty and differs
from the locally bound room, or whose `user.id` equals the local identity's
id, is ignored at the transport-consumption boundary: `handle` is not
invoked, no error is raised, and the state — participants, cursors and
feature store included — is unchanged. -/
theorem c3_amended (cs : ClientState) (m : Msg)
    (h : (∃ r, m.room = some r ∧ r ≠ "" ∧ r ≠ cs.room) ∨
         (∃ u, m.user = some u ∧ u.id = some cs.myId)) :
    onmessage cs (.parsed m) = ((cs, none), false) := by
  rcases h with ⟨r, hr, hne, hnr⟩ | ⟨u, hu, hid⟩
  · have hg : truthyS m.room = true ∧ m.room ≠ some cs.room := by
      constructor
      · simp [truthyS, hr, hne]
      · simp [hr, hnr]
    simp only [onmessage, if_pos hg]
  · by_cases hg : truthyS m.room = true ∧ m.room ≠ some cs.room
    · simp only [onmessage, if_pos hg]
    · simp only [onmessage, if_neg hg, hu, if_pos hid]

/-- C3 witness: a self-echoed cursor message (`user.id` equals the local id)
is dropped without invoking the handler or changing state. -/
theorem c3_witness :
    (∃ u, mSelf.user = some u ∧ u.id = some csFix.myId) ∧
    onmessage csFix (.parsed mSelf) = ((csFix, none), false) :=
  ⟨⟨_, rfl, rfl⟩, c3_amended csFix mSelf (Or.inr ⟨_, rfl, rfl⟩)⟩

/-- C8, evaluated at the failing input: `undo()` on a stack whose next
snapshot contains a geometry Leaflet rejects.  `loadState` clears the store
and then lets the restore error escape (there is no catch, only the
`finally` that resets the flag): the error propagates out of `undo`, and the
feature store — holding one layer before the restore — is left empty, not in
the pre-restore state.  Only the `isRestoring` flag is reset. -/
theorem c8_restore_failure_escapes :
    (undo cs8).2 = some "Invalid GeoJSON object." ∧
    cs8.drawn = [layerA] ∧
    (undo cs8).1.drawn = [] ∧
    (undo cs8).1.isRestoring = false := by
  refine ⟨by decide, rfl, by decide, by decide⟩

/-- C6: a remote `feature:edit` whose (truthy) identifier is not present in
the feature store degrades to an add — afterwards a layer with that
identifier is present — and returns without error; a remote
`feature:remove` for an unknown identifier is a no-op.  (The edit hypothesis
requires the message to carry a geometry Leaflet accepts, which every
serialized feature of this application does.) -/
theorem c6_self_healing (cs : ClientState) (f : Feat) (i : String) (g : Geometry)
    (hid : f.properties.bind (fun p => p._id) = some i) (hne : i ≠ "")
    (hmiss : findLayerById cs.drawn i = none)
    (hg : f.geometry = some g) (hv : (geometryToLayer g).isSome = true)
    (cs2 : ClientState) (j : String) (hmiss2 : findLayerById cs2.drawn j = none) :
    ((editFeatureFromRemote cs f).2 = none ∧
     ((findLayerById (editFeatureFromRemote cs f).1.drawn i).isSome = true)) ∧
    removeFeatureById cs2 j = cs2 := by
  obtain ⟨kl, hkl⟩ := Option.isSome_iff_exists.mp hv
  obtain ⟨p, hp⟩ : ∃ p, f.properties = some p := by
    cases hps : f.properties with
    | none => rw [hps] at hid; simp [Option.bind] at hid
    | some p => exact ⟨p, rfl⟩
  have hpid : p._id = some i := by
    rw [hp] at hid; simpa using hid
  constructor
  · have hadd :
        addFeatureFromRemote cs f =
          ({ cs with
              drawn := cs.drawn ++ [materializeFeature cs.nextId f kl.1 kl.2]
              nextId := cs.nextId + 1 }, none) := by
      simp [addFeatureFromRemote, hg, hkl]
    have hedit : editFeatureFromRemote cs f = addFeatureFromRemote cs f := by
      simp [editFeatureFromRemote, hid, truthyS, hne, hmiss]
    have hlid : (materializeFeature cs.nextId f kl.1 kl.2)._id = some i := by
      simp [materializeFeature, hp, hpid, orDefault, hne]
    rw [hedit, hadd]
    constructor
    · rfl
    · simp only [findLayerById, List.foldl_append, List.foldl_cons, List.foldl_nil, hlid,
        if_pos rfl]
      simp
  · simp [removeFeatureById, hmiss2]

/-- Remote adds touch only the feature store and the fresh-id counter. -/
theorem histView_addFeatureFromRemote (cs : ClientState) (f : Feat) :
    histView (addFeatureFromRemote cs f).1 = histView cs := by
  rcases hg : f.geometry with _ | g
  · simp [addFeatureFromRemote, hg]
  · rcases hk : geometryToLayer g with _ | kl <;> simp [addFeatureFromRemote, hg, hk, histView]

/-- Remote edits touch only the feature store and the fresh-id counter. -/
theorem histView_editFeatureFromRemote (cs : ClientState) (f : Feat) :
    histView (editFeatureFromRemote cs f).1 = histView cs := by
  simp only [editFeatureFromRemote]
  by_cases h1 : truthyS (f.properties.bind fun p => p._id) = false
  · rw [if_pos h1]
    exact histView_addFeatureFromRemote cs f
  · rw [if_neg h1]
    rcases hf : findLayerById cs.drawn ((f.properties.bind fun p => p._id).getD "") with _ | l
    · exact histView_addFeatureFromRemote cs f
    · rfl

/-- Remote removes touch only the feature store. -/
theorem histView_removeFeatureById (cs : ClientState) (i : String) :
    histView (removeFeatureById cs i) = histView cs := by
  unfold removeFeatureById
  split <;> rfl

/-- The cursor branch touches only the participant registry. -/
theorem histView_setCursor (cs : ClientState) (uid : String) (ll : Pt) :
    histView (setCursor cs uid ll) = histView cs := by
  unfold setCursor
  split <;> rfl

/-- The view branch touches only the participant registry. -/
theorem histView_setLastView (cs : ClientState) (uid : String) (c : Pt) (z : Int) :
    histView (setLastView cs uid c z) = histView cs := by
  unfold setLastView
  split <;> rfl

/-- The `isRemoteApplying` wrapper is invisible to the observation channels:
they change exactly as the body changes them. -/
theorem histView_applyingRemote (cs : ClientState)
    (body : ClientState → ClientState × Option String)
    (h : ∀ s : ClientState, histView (body s).1 = histView s) :
    histView (applyingRemote cs body).1 = histView cs := by
  have h2 := h { cs with isRemoteApplying := true }
  simpa [applyingRemote, histView] using h2

/-- No branch of `handle` sends a message, commits a snapshot, or touches the
history stacks. -/
theorem histView_handle (cs : ClientState) (m : Msg) :
    histView (handle cs m).1 = histView cs := by
  unfold handle
  split
  · rfl
  · split
    · rfl
    · split
      · rfl
      · rfl
      · split
        · exact histView_setCursor _ _ _
        · rfl
      · split
        · exact histView_setLastView _ _ _ _
        · rfl
      · split
        · exact histView_applyingRemote _ _ (fun s => histView_addFeatureFromRemote s _)
        · rfl
      · split
        · exact histView_applyingRemote _ _ (fun s => histView_editFeatureFromRemote s _)
        · rfl
      · split
        · split
          · rfl
          · exact histView_applyingRemote _ _ (fun s => histView_removeFeatureById s _)
        · rfl
      · rfl

/-- C4: applying a remote `feature:add`, `feature:edit` or `feature:remove`
emits no outbound message and performs no history commit: the outbox, the
commit counter and both history stacks are unchanged by `handle`; and the
`isRemoteApplying` guard makes each of the outbound senders a no-op while it
is set. -/
theorem c4_echo_suppression (cs : ClientState) (m : Msg)
    (_hty : m.type = "feature:add" ∨ m.type = "feature:edit" ∨ m.type = "feature:remove")
    (cs2 : ClientState) (k : Nat) (hflag : cs2.isRemoteApplying = true) :
    ((handle cs m).1.outbox = cs.outbox ∧ (handle cs m).1.commitCount = cs.commitCount ∧
     (handle cs m).1.undoStack = cs.undoStack ∧ (handle cs m).1.redoStack = cs.redoStack) ∧
    (sendAdd cs2 k = cs2 ∧ sendEdit cs2 k = cs2 ∧ sendRemove cs2 k = cs2) := by
  constructor
  · have h := histView_handle cs m
    simp only [histView, Prod.mk.injEq] at h
    exact ⟨h.1, h.2.1, h.2.2.1, h.2.2.2⟩
  · refine ⟨?_, ?_, ?_⟩ <;> simp [sendAdd, sendEdit, sendRemove, hflag]

/-- C4 witness: handling a concrete remote `feature:add` changes none of the
observation channels, and the senders are no-ops while the flag is set. -/
theorem c4_witness :
    (mC4.type = "feature:add" ∨ mC4.type = "feature:edit" ∨ mC4.type = "feature:remove") ∧
    csFlag.isRemoteApplying = true ∧
    (((handle csFix mC4).1.outbox = csFix.outbox ∧
      (handle csFix mC4).1.commitCount = csFix.commitCount ∧
      (handle csFix mC4).1.undoStack = csFix.undoStack ∧
      (handle csFix mC4).1.redoStack = csFix.redoStack) ∧
     (sendAdd csFlag 0 = csFlag ∧ sendEdit csFlag 0 = csFlag ∧ sendRemove csFlag 0 = csFlag)) :=
  ⟨Or.inl rfl, rfl, c4_echo_suppression csFix mC4 (Or.inl rfl) csFlag 0 rfl⟩

/-- A bounded push leaves the pushed snapshot on top. -/
theorem pushLimit_shape (l : List (List Feat)) (x : List Feat) :
    ∃ p, pushLimit l x = p ++ [x] := by
  unfold pushLimit
  by_cases h : HISTORY_LIMIT < (l ++ [x]).length
  · rw [if_pos h]
    rcases l with _ | ⟨a, t⟩
    · exfalso
      simp [HISTORY_LIMIT] at h
    · exact ⟨t, by simp⟩
  · rw [if_neg h]
    exact ⟨l, rfl⟩

/-- Two consecutive bounded pushes leave both snapshots on top, in order. -/
theorem pushLimit_two (l : List (List Feat)) (x y : List Feat) :
    ∃ p, pushLimit (pushLimit l x) y = p ++ [x, y] := by
  obtain ⟨p1, h1⟩ := pushLimit_shape l x
  rw [h1]
  unfold pushLimit
  by_cases h : HISTORY_LIMIT < (p1 ++ [x] ++ [y]).length
  · rw [if_pos h]
    rcases p1 with _ | ⟨a, t⟩
    · exfalso
      simp [HISTORY_LIMIT] at h
    · exact ⟨t, by simp⟩
  · rw [if_neg h]
    exact ⟨p1, by simp⟩

/-- Restoring a snapshot whose geometries Leaflet all accepts succeeds: it
appends exactly the materialized layers, consumes one fresh id each, and
returns no error. -/
theorem restoreFromGeoJSON_spec (fc : List Feat) : ∀ cs : ClientState, fcValid fc = true →
    restoreFromGeoJSON cs fc =
      ({ cs with drawn := cs.drawn ++ materializedList cs.nextId fc,
                 nextId := cs.nextId + geomCount fc }, none) := by
  induction fc with
  | nil =>
    intro cs _
    simp [restoreFromGeoJSON, materializedList, geomCount]
  | cons f rest ih =>
    intro cs hv
    rw [fcValid, List.all_cons, Bool.and_eq_true] at hv
    obtain ⟨hf, hrest⟩ := hv
    rcases hg : f.geometry with _ | g
    · rw [hg] at hf
      simp only [restoreFromGeoJSON, hg]
      rw [ih cs hrest]
      simp only [materializedList, hg, geomCount, List.filter_cons]
      simp [hg]
    · rw [hg] at hf
      obtain ⟨kl, hkl⟩ := Option.isSome_iff_exists.mp hf
      simp only [restoreFromGeoJSON, hg, hkl]
      rw [ih _ hrest]
      simp only [materializedList, hg, hkl, geomCount, List.filter_cons]
      simp [hg, List.append_assoc]
      omega

/-- Every serialized layer carries a geometry, and one Leaflet accepts. -/
theorem collectOne_valid (l : Layer) :
    (collectOne l).geometry = some (layerGeometry l.kind l.ll) ∧
    (geometryToLayer (layerGeometry l.kind l.ll)).isSome = true := by
  refine ⟨rfl, ?_⟩
  cases l.kind <;> cases l.ll <;> simp [layerGeometry, geometryToLayer]

/-- A snapshot produced by `collectGeoJSON` always restores without error. -/
theorem collect_fcValid (d : List Layer) : fcValid (collectGeoJSON d) = true := by
  rw [fcValid, List.all_eq_true]
  intro f hf
  rw [collectGeoJSON, List.mem_map] at hf
  obtain ⟨l, _, rfl⟩ := hf
  obtain ⟨hg, hv⟩ := collectOne_valid l
  rw [hg]
  exact hv

/-- Restoring a collected snapshot materializes one layer per serialized
layer. -/
theorem collect_geomCount (d : List Layer) : geomCount (collectGeoJSON d) = d.length := by
  induction d with
  | nil => rfl
  | cons l t ih =>
    have hs : (collectOne l).geometry.isSome = true := by
      rw [(collectOne_valid l).1]
      rfl
    simp only [collectGeoJSON, List.map_cons, geomCount, List.filter_cons, hs] at *
    simp [ih]

/-- `undo()` on a stack ending in snapshots `x, y` (with `x` restorable): `y`
moves to the redo stack and the store becomes the materialization of `x`. -/
theorem undo_spec (cs : ClientState) (P : List (List Feat)) (x y : List Feat)
    (hs : cs.undoStack = P ++ [x, y]) (hv : fcValid x = true) :
    undo cs =
      ({ cs with undoStack := P ++ [x], redoStack := cs.redoStack ++ [y],
                 drawn := materializedList cs.nextId x,
                 nextId := cs.nextId + geomCount x,
                 isRestoring := false }, none) := by
  have hcu : canUndo cs = true := by
    rw [canUndo, hs]
    simp
  have hxy : P ++ [x, y] = (P ++ [x]) ++ [y] := by simp
  have hlast : cs.undoStack.getLast? = some y := by
    rw [hs, hxy, List.getLast?_concat]
  have hdrop : cs.undoStack.dropLast = P ++ [x] := by
    rw [hs, hxy, List.dropLast_concat]
  have hlast2 : (P ++ [x]).getLast? = some x := List.getLast?_concat _
  rw [undo, hcu]
  simp only [Bool.true_eq_false, if_false, hlast, hdrop, hlast2]
  rw [loadState]
  rw [restoreFromGeoJSON_spec x _ hv]
  rfl

/-- `redo()` on a non-empty redo stack ending in a restorable snapshot `y`:
`y` moves back to the undo stack and the store becomes its
materialization. -/
theorem redo_spec (cs : ClientState) (Q : List (List Feat)) (y : List Feat)
    (hs : cs.redoStack = Q ++ [y]) (hv : fcValid y = true) :
    redo cs =
      ({ cs with redoStack := Q, undoStack := cs.undoStack ++ [y],
                 drawn := materializedList cs.nextId y,
                 nextId := cs.nextId + geomCount y,
                 isRestoring := false }, none) := by
  have hcr : canRedo cs = true := by
    rw [canRedo, hs]
    simp
  have hlast : cs.redoStack.getLast? = some y := by
    rw [hs, List.getLast?_concat]
  have hdrop : cs.redoStack.dropLast = Q := by
    rw [hs, List.dropLast_concat]
  rw [redo, hcr]
  simp only [Bool.true_eq_false, if_false, hlast, hdrop]
  rw [loadState]
  rw [restoreFromGeoJSON_spec y _ hv]
  rfl

/-- C7 amended: for the sequence `commit(); mutate; commit()`, `undo()`
succeeds and sets the feature store to the materialization (deserialization)
of the snapshot captured at the first commit; a following `redo()` succeeds
and sets the store to the materialization of the mutated snapshot; and
`undo()` with fewer than two snapshots is a no-op.  Because `collectGeoJSON`
serializes neither `options._id` nor `options._meta` (they survive only
through an attached `layer.feature`), the materialized store can differ from
the pre-mutation store — features whose snapshot lacked a serialized id get
fresh identifiers — so "restores the state at the first commit" holds for
the serialized content, not as store equality. -/
theorem c7_undo_redo (cs : ClientState) (newDrawn : List Layer)
    (hr : cs.isRestoring = false)
    (csX : ClientState) (hX : csX.undoStack.length ≤ 1) :
    ((undo (snapshot { snapshot cs with drawn := newDrawn })).2 = none ∧
     (undo (snapshot { snapshot cs with drawn := newDrawn })).1.drawn
        = materializedList cs.nextId (collectGeoJSON cs.drawn)) ∧
    ((redo (undo (snapshot { snapshot cs with drawn := newDrawn })).1).2 = none ∧
     (redo (undo (snapshot { snapshot cs with drawn := newDrawn })).1).1.drawn
        = materializedList (cs.nextId + cs.drawn.length) (collectGeoJSON newDrawn)) ∧
    undo csX = (csX, none) := by
  obtain ⟨P, hP⟩ :=
    pushLimit_two cs.undoStack (collectGeoJSON cs.drawn) (collectGeoJSON newDrawn)
  have h3 : snapshot { snapshot cs with drawn := newDrawn } =
      { cs with drawn := newDrawn,
                undoStack := P ++ [collectGeoJSON cs.drawn, collectGeoJSON newDrawn],
                redoStack := [], commitCount := cs.commitCount + 1 + 1 } := by
    simp [snapshot, hr, hP]
  rw [h3]
  set L : ClientState :=
    { cs with drawn := newDrawn,
              undoStack := P ++ [collectGeoJSON cs.drawn, collectGeoJSON newDrawn],
              redoStack := [], commitCount := cs.commitCount + 1 + 1 } with hL
  have hundo := undo_spec L P (collectGeoJSON cs.drawn) (collectGeoJSON newDrawn)
    (by rw [hL]) (collect_fcValid cs.drawn)
  have hs2 : (undo L).1.redoStack = [] ++ [collectGeoJSON newDrawn] := by
    rw [hundo, hL]
  have hredo := redo_spec (undo L).1 [] (collectGeoJSON newDrawn) hs2 (collect_fcValid newDrawn)
  refine ⟨⟨?_, ?_⟩, ⟨?_, ?_⟩, ?_⟩
  · rw [hundo]
  · rw [hundo, hL]
  · rw [hredo]
  · rw [hredo]
    simp only [hundo, hL, collect_geomCount]
  · have hcu : canUndo csX = false := by
      rw [canUndo]
      simp only [decide_eq_false_iff_not]
      omega
    rw [undo, hcu]
    rfl

/-- C7 witness: the concrete sequence on a fresh client — both snapshot
materializations and the no-op `undo()` at a single-snapshot stack. -/
theorem c7_witness :
    csFix.isRestoring = false ∧ csFix.undoStack.length ≤ 1 ∧
    (((undo (snapshot { snapshot csFix with drawn := ([] : List Layer) })).2 = none ∧
      (undo (snapshot { snapshot csFix with drawn := ([] : List Layer) })).1.drawn
         = materializedList csFix.nextId (collectGeoJSON csFix.drawn)) ∧
     ((redo (undo (snapshot { snapshot csFix with drawn := ([] : List Layer) })).1).2 = none ∧
      (redo (undo (snapshot { snapshot csFix with drawn := ([] : List Layer) })).1).1.drawn
         = materializedList (csFix.nextId + csFix.drawn.length) (collectGeoJSON ([] : List Layer))) ∧
     undo csFix = (csFix, none)) :=
  ⟨rfl, by decide, c7_undo_redo csFix [] rfl csFix (by decide)⟩

/-- C7, counterexample to the claim as stated: for the claim's sequence
`commit(); mutate; commit(); undo()` starting from a store with one locally
drawn layer (id "f_a", no attached serialized feature), the restore
succeeds, but the restored store is not equal to the state captured at the
first commit — the serialized snapshot carried no `_id`, so the restored
layer got a fresh identifier. -/
theorem c7_counterexample :
    csA.isRestoring = false ∧
    (undo (snapshot { snapshot csA with drawn := ([] : List Layer) })).2 = none ∧
    (undo (snapshot { snapshot csA with drawn := ([] : List Layer) })).1.drawn ≠ csA.drawn := by
  refine ⟨rfl, by decide, by decide⟩

/-- C6 witness: editing a feature with unknown id "zz" on an empty store adds
it; removing unknown id "nope" is a no-op. -/
theorem c6_witness :
    featB.properties.bind (fun p => p._id) = some "zz" ∧
    findLayerById csFix.drawn "zz" = none ∧
    ((editFeatureFromRemote csFix featB).2 = none ∧
     ((findLayerById (editFeatureFromRemote csFix featB).1.drawn "zz").isSome = true)) ∧
    removeFeatureById csFix "nope" = csFix :=
  ⟨rfl, rfl,
    c6_self_healing csFix featB "zz" (.lineString [(5, 6)]) rfl (by decide) rfl rfl rfl
      csFix "nope" rfl⟩
